import Mathlib

/-!
Shallow embedding of the backtesting engine in `src/utils/backtester.py`
(`Backtester`, `BacktestTrade`, `BacktestConfig` and the helper methods of
`Backtester`).

Modelling conventions:
* Python floats are modelled as exact rationals (`ℚ`); all the arithmetic in
  the claims under study is exact.
* Timestamps (`datetime`) are modelled as natural numbers; the engine only
  stores and compares them.
* `run_backtest` is embedded for a single traded symbol (the engine is invoked
  with one symbol and its `positions` dict holds at most that one key during a
  run), so `positions` becomes an `Option BacktestTrade`.
* `HistoricalDataProvider` (file/database I/O) is not modelled; the embedded
  `run_backtest` takes the already-loaded list of bars as input, exactly as the
  replay loop consumes it (only the `timestamp` and `close` columns are read).
* Python `int(x)` (truncation toward zero) is modelled by `pyInt`.
-/

/-- One row of the historical-data frame as consumed by the replay loop:
the loop reads only `row['timestamp']` and `row['close']`. -/
structure Bar where
  timestamp : ℕ
  close : ℚ
deriving DecidableEq

/-- Embedding of the dataclass `BacktestTrade`, with the source's field
defaults. -/
structure BacktestTrade where
  entry_time : ℕ
  exit_time : Option ℕ := none
  symbol : String := ""
  action : String := ""
  entry_price : ℚ := 0
  exit_price : ℚ := 0
  quantity : ℤ := 0
  pnl : ℚ := 0
  commission : ℚ := 0
  slippage : ℚ := 0
  status : String := "OPEN"
  strategy_signal : String := ""
  notes : String := ""
deriving DecidableEq

/-- Embedding of the dataclass `BacktestConfig`, with the source's defaults. -/
structure BacktestConfig where
  initial_capital : ℚ := 100000
  commission_per_trade : ℚ := 20
  commission_pct : ℚ := 0.0003
  slippage_pct : ℚ := 0.001
  position_sizing : String := "fixed"
  position_size : ℚ := 1
  max_positions : ℕ := 10
  enable_stop_loss : Bool := true
  enable_take_profit : Bool := true
  risk_free_rate : ℚ := 0.06
deriving DecidableEq

/-- The strategy-parameter dict, restricted to the two keys the engine itself
reads (`params.get('stop_loss_pct', 0.05)` and
`params.get('take_profit_pct', 0.10)`); an absent key is `none`. -/
structure StrategyParams where
  stop_loss_pct : Option ℚ := none
  take_profit_pct : Option ℚ := none
deriving DecidableEq

/-- The mutable state of a `Backtester` during a single-symbol run:
`current_capital`, `positions` (at most the traded symbol's open trade),
`trades` and `equity_curve`. -/
structure BtState where
  current_capital : ℚ
  position : Option BacktestTrade
  trades : List BacktestTrade
  equity_curve : List (ℕ × ℚ)
deriving DecidableEq

/-- Python `int(x)` on an exact rational value: truncation toward zero. -/
def pyInt (q : ℚ) : ℤ :=
  Int.tdiv q.num (q.den : ℤ)

/-- Embedding of `Backtester._calculate_position_size`. -/
def calculate_position_size (cfg : BacktestConfig) (current_capital price : ℚ) : ℤ :=
  if cfg.position_sizing = "fixed" then
    pyInt cfg.position_size
  else if cfg.position_sizing = "percentage" then
    pyInt (current_capital * cfg.position_size / price)
  else if cfg.position_sizing = "kelly" then
    pyInt (current_capital * 0.02 / price)
  else
    0

/-- The total cost charged by `_execute_buy`: gross value plus entry
commission plus entry slippage. -/
def buy_total_cost (cfg : BacktestConfig) (price : ℚ) (quantity : ℤ) : ℚ :=
  let gross_value := price * (quantity : ℚ)
  let commission := cfg.commission_per_trade + gross_value * cfg.commission_pct
  let slippage := gross_value * cfg.slippage_pct
  gross_value + commission + slippage

/-- Embedding of `Backtester._execute_buy`. -/
def execute_buy (cfg : BacktestConfig) (sym : String) (timestamp : ℕ)
    (price : ℚ) (st : BtState) : BtState :=
  let quantity := calculate_position_size cfg st.current_capital price
  if quantity = 0 then st
  else
    let gross_value := price * (quantity : ℚ)
    let commission := cfg.commission_per_trade + gross_value * cfg.commission_pct
    let slippage := gross_value * cfg.slippage_pct
    let total_cost := gross_value + commission + slippage
    if st.current_capital < total_cost then st
    else
      let trade : BacktestTrade :=
        { entry_time := timestamp
          symbol := sym
          action := "BUY"
          entry_price := price + price * cfg.slippage_pct
          quantity := quantity
          commission := commission
          slippage := slippage
          status := "OPEN" }
      { st with
          position := some trade
          current_capital := st.current_capital - total_cost }

/-- Embedding of `Backtester._execute_sell`. -/
def execute_sell (cfg : BacktestConfig) (sym : String) (timestamp : ℕ)
    (price : ℚ) (forced : Bool) (st : BtState) : BtState :=
  match st.position with
  | none => st
  | some position =>
    let exit_price := price - price * cfg.slippage_pct
    let gross_value := exit_price * (position.quantity : ℚ)
    let commission := cfg.commission_per_trade + gross_value * cfg.commission_pct
    let slippage := gross_value * cfg.slippage_pct
    let entry_value := position.entry_price * (position.quantity : ℚ)
    let pnl := gross_value - entry_value - commission - slippage - position.commission
    let closed : BacktestTrade :=
      { position with
          exit_time := some timestamp
          exit_price := exit_price
          pnl := pnl
          status := "CLOSED"
          notes := if forced then "Forced close" else "Normal exit" }
    { st with
        current_capital := st.current_capital + gross_value - commission - slippage
        trades := st.trades ++ [closed]
        position := none }

/-- Embedding of `Backtester._check_exit_conditions`. -/
def check_exit_conditions (cfg : BacktestConfig) (sym : String) (timestamp : ℕ)
    (current_price : ℚ) (params : StrategyParams) (st : BtState) : BtState :=
  match st.position with
  | none => st
  | some position =>
    let stop_loss_pct := params.stop_loss_pct.getD 0.05
    let stop_price := position.entry_price * (1 - stop_loss_pct)
    if cfg.enable_stop_loss ∧ current_price ≤ stop_price then
      execute_sell cfg sym timestamp current_price false
        { st with position := some { position with notes := "Stop loss" } }
    else
      let take_profit_pct := params.take_profit_pct.getD 0.10
      let target_price := position.entry_price * (1 + take_profit_pct)
      if cfg.enable_take_profit ∧ current_price ≥ target_price then
        execute_sell cfg sym timestamp current_price false
          { st with position := some { position with notes := "Take profit" } }
      else st

/-- Embedding of `Backtester._calculate_current_equity`: capital plus the
unrealized P&L of each open position at the given price. -/
def calculate_current_equity (price : ℚ) (st : BtState) : ℚ :=
  match st.position with
  | none => st.current_capital
  | some position =>
    st.current_capital + (price - position.entry_price) * (position.quantity : ℚ)

/-- The slice `data.iloc[:idx+1]` handed to the strategy function at bar
index `idx`: all bars up to and including the current one. -/
def stratInput (data : List Bar) (i : ℕ) : List Bar :=
  data.take (i + 1)

/-- The equity-curve update at the top of each loop iteration of
`run_backtest`. -/
def appendEquity (bar : Bar) (st : BtState) : BtState :=
  { st with
      equity_curve :=
        st.equity_curve ++ [(bar.timestamp, calculate_current_equity bar.close st)] }

/-- One iteration of the replay loop of `Backtester.run_backtest`: append
equity, query the strategy on the bars seen so far, act on `BUY`/`SELL`, then
run the stop-loss/take-profit check when either is enabled. -/
def processBar (cfg : BacktestConfig) (strategy : List Bar → StrategyParams → String)
    (params : StrategyParams) (sym : String) (data : List Bar)
    (i : ℕ) (bar : Bar) (st : BtState) : BtState :=
  let st1 := appendEquity bar st
  let signal := strategy (stratInput data i) params
  let st2 :=
    if signal = "BUY" then
      if st1.position.isNone then execute_buy cfg sym bar.timestamp bar.close st1 else st1
    else if signal = "SELL" then
      if st1.position.isSome then execute_sell cfg sym bar.timestamp bar.close false st1 else st1
    else st1
  if cfg.enable_stop_loss || cfg.enable_take_profit then
    check_exit_conditions cfg sym bar.timestamp bar.close params st2
  else st2

/-- The state reset performed at the start of `run_backtest`. -/
def initState (cfg : BacktestConfig) : BtState :=
  { current_capital := cfg.initial_capital
    position := none
    trades := []
    equity_curve := [] }

/-- The full replay loop over the enumerated bars. -/
def runLoop (cfg : BacktestConfig) (strategy : List Bar → StrategyParams → String)
    (params : StrategyParams) (sym : String) (data : List Bar) : BtState :=
  data.enum.foldl (fun st ib => processBar cfg strategy params sym data ib.1 ib.2 st)
    (initState cfg)

/-- Embedding of `Backtester.run_backtest` (single symbol): reset state, run
the replay loop, then force-close any remaining position at the final bar's
close. On empty data the engine returns early with the state untouched. -/
def run_backtest (cfg : BacktestConfig) (strategy : List Bar → StrategyParams → String)
    (sym : String) (data : List Bar) (params : StrategyParams) : BtState :=
  match data.getLast? with
  | none => initState cfg
  | some last =>
    let stN := runLoop cfg strategy params sym data
    if stN.position.isSome then
      execute_sell cfg sym last.timestamp last.close true stN
    else stN

/-- The `total_commission` aggregate of `_calculate_results`: the sum of the
`commission` field stored on each recorded trade. -/
def total_commission (trades : List BacktestTrade) : ℚ :=
  (trades.map (fun t => t.commission)).sum

/-- The `total_slippage` aggregate of `_calculate_results`: the sum of the
`slippage` field stored on each recorded trade. -/
def total_slippage (trades : List BacktestTrade) : ℚ :=
  (trades.map (fun t => t.slippage)).sum

/-- One step of the loop in `Backtester._calculate_consecutive_stats`, acting
on the accumulator `(max_wins, max_losses, current_wins, current_losses)`.
Note the source has no branch for `pnl == 0`: a zero leaves all four counters
unchanged. -/
def consecutiveStep (acc : ℕ × ℕ × ℕ × ℕ) (pnl : ℚ) : ℕ × ℕ × ℕ × ℕ :=
  if 0 < pnl then
    (max acc.1 (acc.2.2.1 + 1), acc.2.1, acc.2.2.1 + 1, 0)
  else if pnl < 0 then
    (acc.1, max acc.2.1 (acc.2.2.2 + 1), 0, acc.2.2.2 + 1)
  else acc

/-- Embedding of `Backtester._calculate_consecutive_stats`. -/
def calculate_consecutive_stats (pnls : List ℚ) : ℕ × ℕ :=
  let r := pnls.foldl consecutiveStep (0, 0, 0, 0)
  (r.1, r.2.1)

/-- One step of a longest-run computation: the length of the current run of
elements satisfying `p`, and the maximum run length seen so far. Any element
failing `p` (in particular a zero P&L, for the strictly-positive and
strictly-negative predicates) resets the current run to zero. -/
def longestRunStep (p : ℚ → Bool) (acc : ℕ × ℕ) (x : ℚ) : ℕ × ℕ :=
  let cur := if p x then acc.2 + 1 else 0
  (max acc.1 cur, cur)

/-- The length of the longest contiguous run of elements of `l` satisfying
`p`. -/
def longestRun (p : ℚ → Bool) (l : List ℚ) : ℕ :=
  (l.foldl (longestRunStep p) (0, 0)).1

/-- Modelled from the spec sentence of claim C3: the pair of the longest run
of strictly-positive P&L values and the longest run of strictly-negative P&L
values, where a zero breaks (resets) both runs. -/
def consecutiveSpec (pnls : List ℚ) : ℕ × ℕ :=
  (longestRun (fun x => decide (0 < x)) pnls,
   longestRun (fun x => decide (x < 0)) pnls)

/-- The sum over all open positions of `(price - entry_price) * quantity`,
as in the loop body of `_calculate_current_equity` (at most one open position
in a single-symbol run). -/
def unrealized_pnl (price : ℚ) : Option BacktestTrade → ℚ
  | none => 0
  | some position => (price - position.entry_price) * (position.quantity : ℚ)

/-- The strategy of the spec's 3-bar example: `BUY` when it sees one bar,
`HOLD` when it sees two, `SELL` when it sees three. -/
def stratC1 : List Bar → StrategyParams → String := fun bars _ =>
  if bars.length = 1 then "BUY" else if bars.length = 2 then "HOLD" else "SELL"

/-- The configuration of the spec's 3-bar example: capital 10000, fixed
sizing at quantity 10, zero commission and slippage. The stop-loss and
take-profit checks are disabled so that the example's signal-driven `SELL`
exit at the third bar is what resolves the trade, as the scenario intends. -/
def cfgC1 : BacktestConfig :=
  { initial_capital := 10000, commission_per_trade := 0, commission_pct := 0,
    slippage_pct := 0, position_sizing := "fixed", position_size := 10,
    enable_stop_loss := false, enable_take_profit := false }

/-- The 3-bar close series `[100, 110, 90]` of the spec's example. -/
def dataC1 : List Bar := [⟨0, 100⟩, ⟨1, 110⟩, ⟨2, 90⟩]

/-- The final backtester state of the spec's 3-bar example. -/
def runC1 : BtState := run_backtest cfgC1 stratC1 "SYM" dataC1 {}

/-- A strategy that buys on the first bar and holds afterwards. -/
def stratBuyHold : List Bar → StrategyParams → String := fun bars _ =>
  if bars.length = 1 then "BUY" else "HOLD"

/-- Configuration for the exit-note scenarios: capital 10000, fixed sizing at
quantity 10, zero costs, stop-loss and take-profit enabled (the dataclass
defaults). -/
def cfgC2 : BacktestConfig :=
  { initial_capital := 10000, commission_per_trade := 0, commission_pct := 0,
    slippage_pct := 0, position_sizing := "fixed", position_size := 10 }

/-- Two bars where the default 10% take-profit threshold (entry 100, target
110) is crossed at the second bar's close 115. -/
def dataTP : List Bar := [⟨0, 100⟩, ⟨1, 115⟩]

/-- Two bars where the default 5% stop-loss threshold (entry 100, stop 95) is
crossed at the second bar's close 80. -/
def dataSL : List Bar := [⟨0, 100⟩, ⟨1, 80⟩]

/-- C1: the spec's 3-bar example claims entry_price=110, exit_price=90,
pnl=-200 and final_capital=9800. The engine fills a `BUY` at the close of the
very bar whose signal produced it, so the entry price is the first bar's
close 100, the trade's P&L is (90-100)*10 = -100, and the final capital is
9900; the claimed output is refuted at this exact input. -/
theorem C1_counterexample :
    runC1.trades.map (fun t => t.entry_price) = [100] ∧
    runC1.current_capital = 9900 ∧
    ¬ (runC1.trades.map (fun t => t.entry_price) = [110] ∧
       runC1.trades.map (fun t => t.pnl) = [-200] ∧
       runC1.current_capital = 9800) := by
  norm_num +decide [runC1, run_backtest, runLoop, processBar, appendEquity, stratInput,
    initState, cfgC1, dataC1, stratC1, execute_buy, execute_sell,
    check_exit_conditions, calculate_current_equity, calculate_position_size,
    pyInt, List.enum, List.enumFrom, List.foldl]

/-- C1 (amended): in the spec's 3-bar example the engine returns exactly one
closed trade with entry_price=100 (the first bar's close, since signals fill
at the same bar), exit_price=90, pnl=(90-100)*10=-100, and
final_capital=9900; no position remains open. -/
theorem C1_amended_run :
    runC1.trades.map (fun t => (t.entry_price, t.exit_price, t.pnl, t.status)) =
      [(100, 90, -100, "CLOSED")] ∧
    runC1.current_capital = 9900 ∧
    runC1.position = none := by
  norm_num +decide [runC1, run_backtest, runLoop, processBar, appendEquity, stratInput,
    initState, cfgC1, dataC1, stratC1, execute_buy, execute_sell,
    check_exit_conditions, calculate_current_equity, calculate_position_size,
    pyInt, List.enum, List.enumFrom, List.foldl]

/-- C2: a trade closed by the stop-loss (respectively take-profit) check is
supposed to carry the note "Stop loss" (respectively "Take profit") in the
result's trade list. `_check_exit_conditions` does set that note on the open
position, but `_execute_sell` then unconditionally overwrites `notes` with
"Normal exit", so in both scenarios the recorded note is "Normal exit": the
distinguishing note is lost. (The strategy holds after the entry bar, so the
second-bar exits below can only come from the stop/target check.) -/
theorem C2_exit_note_overwritten :
    (run_backtest cfgC2 stratBuyHold "S" dataTP {}).trades.map
        (fun t => (t.notes, t.exit_price, t.exit_time)) =
      [("Normal exit", 115, some 1)] ∧
    (run_backtest cfgC2 stratBuyHold "S" dataSL {}).trades.map
        (fun t => (t.notes, t.exit_price, t.exit_time)) =
      [("Normal exit", 80, some 1)] := by
  norm_num +decide [run_backtest, runLoop, processBar, appendEquity, stratInput,
    initState, cfgC2, dataTP, dataSL, stratBuyHold, execute_buy, execute_sell,
    check_exit_conditions, calculate_current_equity, calculate_position_size,
    pyInt, Option.getD, List.enum, List.enumFrom, List.foldl]

/-- C3: the claim says a zero P&L resets both streak counters. The loop in
`_calculate_consecutive_stats` has no branch for `pnl == 0`, so a zero leaves
both counters unchanged: on `[1, 0, 1]` the engine reports 2 consecutive
wins, while the longest run of strictly-positive values (zero resetting) is
1. -/
theorem C3_counterexample :
    calculate_consecutive_stats [1, 0, 1] = (2, 0) ∧
    consecutiveSpec [1, 0, 1] = (1, 0) ∧
    calculate_consecutive_stats [1, 0, 1] ≠ consecutiveSpec [1, 0, 1] := by
  decide

/-- Auxiliary invariant for the consecutive-stats fold: the engine's
four-counter fold equals two independent longest-run folds over the list with
the zeros removed (zeros leave every counter unchanged, positives reset the
loss run, negatives reset the win run). -/
theorem consec_aux (l : List ℚ) : ∀ mw ml cw cl : ℕ,
    l.foldl consecutiveStep (mw, ml, cw, cl) =
      (((l.filter fun x => decide (x ≠ 0)).foldl
          (longestRunStep fun x => decide (0 < x)) (mw, cw)).1,
       ((l.filter fun x => decide (x ≠ 0)).foldl
          (longestRunStep fun x => decide (x < 0)) (ml, cl)).1,
       ((l.filter fun x => decide (x ≠ 0)).foldl
          (longestRunStep fun x => decide (0 < x)) (mw, cw)).2,
       ((l.filter fun x => decide (x ≠ 0)).foldl
          (longestRunStep fun x => decide (x < 0)) (ml, cl)).2) := by
  induction l with
  | nil => intro mw ml cw cl; rfl
  | cons x xs ih =>
    intro mw ml cw cl
    rcases lt_trichotomy x 0 with hx | hx | hx
    · have hne : (x :: xs).filter (fun x => decide (x ≠ 0)) =
          x :: xs.filter (fun x => decide (x ≠ 0)) := by
        simp [List.filter_cons, hx.ne]
      have h1 : consecutiveStep (mw, ml, cw, cl) x = (mw, max ml (cl + 1), 0, cl + 1) := by
        simp only [consecutiveStep]
        rw [if_neg (by exact not_lt.mpr hx.le), if_pos hx]
      have h3 : longestRunStep (fun x => decide (0 < x)) (mw, cw) x = (mw, 0) := by
        simp [longestRunStep, not_lt.mpr hx.le]
      have h4 : longestRunStep (fun x => decide (x < 0)) (ml, cl) x =
          (max ml (cl + 1), cl + 1) := by
        simp [longestRunStep, hx]
      rw [List.foldl_cons, h1, hne, List.foldl_cons, List.foldl_cons, h3, h4]
      exact ih mw (max ml (cl + 1)) 0 (cl + 1)
    · subst hx
      have hne : ((0 : ℚ) :: xs).filter (fun x => decide (x ≠ 0)) =
          xs.filter (fun x => decide (x ≠ 0)) := by
        simp [List.filter_cons]
      have h1 : consecutiveStep (mw, ml, cw, cl) 0 = (mw, ml, cw, cl) := by
        simp [consecutiveStep]
      rw [List.foldl_cons, h1, hne]
      exact ih mw ml cw cl
    · have hne : (x :: xs).filter (fun x => decide (x ≠ 0)) =
          x :: xs.filter (fun x => decide (x ≠ 0)) := by
        simp [List.filter_cons, hx.ne']
      have h1 : consecutiveStep (mw, ml, cw, cl) x = (max mw (cw + 1), ml, cw + 1, 0) := by
        simp only [consecutiveStep]
        rw [if_pos hx]
      have h3 : longestRunStep (fun x => decide (0 < x)) (mw, cw) x =
          (max mw (cw + 1), cw + 1) := by
        simp [longestRunStep, hx]
      have h4 : longestRunStep (fun x => decide (x < 0)) (ml, cl) x = (ml, 0) := by
        simp [longestRunStep, not_lt.mpr hx.le]
      rw [List.foldl_cons, h1, hne, List.foldl_cons, List.foldl_cons, h3, h4]
      exact ih (max mw (cw + 1)) ml (cw + 1) 0

/-- C3 (amended): `_calculate_consecutive_stats` returns the longest runs of
strictly-positive and strictly-negative P&L values computed over the trade
list with all zero-P&L trades removed: a zero P&L does not reset the
counters, it is skipped (the loop has no `pnl == 0` branch), while a negative
P&L resets the win run and a positive P&L resets the loss run. -/
theorem C3_amended_streaks (pnls : List ℚ) :
    calculate_consecutive_stats pnls =
      (longestRun (fun x => decide (0 < x)) (pnls.filter fun x => decide (x ≠ 0)),
       longestRun (fun x => decide (x < 0)) (pnls.filter fun x => decide (x ≠ 0))) := by
  unfold calculate_consecutive_stats longestRun
  rw [consec_aux]

theorem execute_buy_trades (cfg : BacktestConfig) (sym : String) (ts : ℕ)
    (p : ℚ) (st : BtState) : (execute_buy cfg sym ts p st).trades = st.trades := by
  simp only [execute_buy]
  split
  · rfl
  · split <;> rfl

theorem execute_buy_equity (cfg : BacktestConfig) (sym : String) (ts : ℕ)
    (p : ℚ) (st : BtState) :
    (execute_buy cfg sym ts p st).equity_curve = st.equity_curve := by
  simp only [execute_buy]
  split
  · rfl
  · split <;> rfl

theorem execute_sell_of_none (cfg : BacktestConfig) (sym : String) (ts : ℕ)
    (p : ℚ) (f : Bool) (st : BtState) (h : st.position = none) :
    execute_sell cfg sym ts p f st = st := by
  simp only [execute_sell, h]

theorem execute_sell_position_none (cfg : BacktestConfig) (sym : String) (ts : ℕ)
    (p : ℚ) (f : Bool) (st : BtState) :
    (execute_sell cfg sym ts p f st).position = none := by
  cases h : st.position with
  | none => rw [execute_sell_of_none cfg sym ts p f st h]; exact h
  | some pos => simp only [execute_sell, h]

theorem execute_sell_equity (cfg : BacktestConfig) (sym : String) (ts : ℕ)
    (p : ℚ) (f : Bool) (st : BtState) :
    (execute_sell cfg sym ts p f st).equity_curve = st.equity_curve := by
  cases h : st.position with
  | none => rw [execute_sell_of_none cfg sym ts p f st h]
  | some pos => simp only [execute_sell, h]

theorem execute_sell_closed (cfg : BacktestConfig) (sym : String) (ts : ℕ)
    (p : ℚ) (f : Bool) (st : BtState)
    (hc : ∀ t ∈ st.trades, t.status = "CLOSED") :
    ∀ t ∈ (execute_sell cfg sym ts p f st).trades, t.status = "CLOSED" := by
  cases h : st.position with
  | none => rw [execute_sell_of_none cfg sym ts p f st h]; exact hc
  | some pos =>
    simp only [execute_sell, h]
    intro t ht
    rcases List.mem_append.mp ht with h1 | h1
    · exact hc t h1
    · rcases List.mem_singleton.mp h1 with rfl
      rfl

theorem check_exit_equity (cfg : BacktestConfig) (sym : String) (ts : ℕ)
    (p : ℚ) (params : StrategyParams) (st : BtState) :
    (check_exit_conditions cfg sym ts p params st).equity_curve = st.equity_curve := by
  cases h : st.position with
  | none => simp only [check_exit_conditions, h]
  | some pos =>
    simp only [check_exit_conditions, h]
    split
    · rw [execute_sell_equity]
    · split
      · rw [execute_sell_equity]
      · rfl

theorem check_exit_closed (cfg : BacktestConfig) (sym : String) (ts : ℕ)
    (p : ℚ) (params : StrategyParams) (st : BtState)
    (hc : ∀ t ∈ st.trades, t.status = "CLOSED") :
    ∀ t ∈ (check_exit_conditions cfg sym ts p params st).trades, t.status = "CLOSED" := by
  cases h : st.position with
  | none => simp only [check_exit_conditions, h]; exact hc
  | some pos =>
    simp only [check_exit_conditions, h]
    split
    · exact execute_sell_closed _ _ _ _ _ _ hc
    · split
      · exact execute_sell_closed _ _ _ _ _ _ hc
      · exact hc

theorem processBar_equity (cfg : BacktestConfig)
    (strategy : List Bar → StrategyParams → String) (params : StrategyParams)
    (sym : String) (data : List Bar) (i : ℕ) (bar : Bar) (st : BtState) :
    (processBar cfg strategy params sym data i bar st).equity_curve =
      st.equity_curve ++ [(bar.timestamp, calculate_current_equity bar.close st)] := by
  simp only [processBar]
  have hchain :
      (if strategy (stratInput data i) params = "BUY" then
          if (appendEquity bar st).position.isNone then
            execute_buy cfg sym bar.timestamp bar.close (appendEquity bar st)
          else appendEquity bar st
        else
          if strategy (stratInput data i) params = "SELL" then
            if (appendEquity bar st).position.isSome then
              execute_sell cfg sym bar.timestamp bar.close false (appendEquity bar st)
            else appendEquity bar st
          else appendEquity bar st).equity_curve =
        st.equity_curve ++ [(bar.timestamp, calculate_current_equity bar.close st)] := by
    split
    · split
      · rw [execute_buy_equity]; rfl
      · rfl
    · split
      · split
        · rw [execute_sell_equity]; rfl
        · rfl
      · rfl
  split
  · rw [check_exit_equity]; exact hchain
  · exact hchain

theorem processBar_closed (cfg : BacktestConfig)
    (strategy : List Bar → StrategyParams → String) (params : StrategyParams)
    (sym : String) (data : List Bar) (i : ℕ) (bar : Bar) (st : BtState)
    (hc : ∀ t ∈ st.trades, t.status = "CLOSED") :
    ∀ t ∈ (processBar cfg strategy params sym data i bar st).trades,
      t.status = "CLOSED" := by
  simp only [processBar]
  have hchain :
      ∀ t ∈ (if strategy (stratInput data i) params = "BUY" then
          if (appendEquity bar st).position.isNone then
            execute_buy cfg sym bar.timestamp bar.close (appendEquity bar st)
          else appendEquity bar st
        else
          if strategy (stratInput data i) params = "SELL" then
            if (appendEquity bar st).position.isSome then
              execute_sell cfg sym bar.timestamp bar.close false (appendEquity bar st)
            else appendEquity bar st
          else appendEquity bar st).trades, t.status = "CLOSED" := by
    split
    · split
      · rw [execute_buy_trades]; exact hc
      · exact hc
    · split
      · split
        · exact execute_sell_closed _ _ _ _ _ _ hc
        · exact hc
      · exact hc
  split
  · exact check_exit_closed _ _ _ _ _ _ hchain
  · exact hchain

theorem runLoop_closed_aux (cfg : BacktestConfig)
    (strategy : List Bar → StrategyParams → String) (params : StrategyParams)
    (sym : String) (data : List Bar) (l : List (ℕ × Bar)) :
    ∀ st : BtState, (∀ t ∈ st.trades, t.status = "CLOSED") →
      ∀ t ∈ (l.foldl (fun st ib => processBar cfg strategy params sym data ib.1 ib.2 st)
          st).trades, t.status = "CLOSED" := by
  induction l with
  | nil => intro st h; exact h
  | cons ib rest ih =>
    intro st h
    exact ih _ (processBar_closed _ _ _ _ _ _ _ _ h)

/-- C7: the equity value appended to the equity curve at every bar equals
`current_capital` plus the sum of the unrealized P&L
`(close - entry_price) * quantity` of the open positions, all taken from the
state at the moment of the append (the top of the loop body, before the bar's
trades execute); arithmetic is exact rationals, so the equality is exact. -/
theorem C7_equity_invariant (cfg : BacktestConfig)
    (strategy : List Bar → StrategyParams → String) (params : StrategyParams)
    (sym : String) (data : List Bar) (i : ℕ) (bar : Bar) (st : BtState) :
    (processBar cfg strategy params sym data i bar st).equity_curve.getLast? =
      some (bar.timestamp, st.current_capital + unrealized_pnl bar.close st.position) := by
  rw [processBar_equity, List.getLast?_concat]
  have heq : calculate_current_equity bar.close st =
      st.current_capital + unrealized_pnl bar.close st.position := by
    cases h : st.position with
    | none => simp [calculate_current_equity, unrealized_pnl, h]
    | some pos => simp [calculate_current_equity, unrealized_pnl, h]
  rw [heq]

/-- Unfolding lemma for `run_backtest` on non-empty data. -/
theorem run_backtest_eq_of_getLast (cfg : BacktestConfig)
    (strategy : List Bar → StrategyParams → String) (params : StrategyParams)
    (sym : String) (data : List Bar) (last : Bar)
    (hlast : data.getLast? = some last) :
    run_backtest cfg strategy sym data params =
      if (runLoop cfg strategy params sym data).position.isSome then
        execute_sell cfg sym last.timestamp last.close true
          (runLoop cfg strategy params sym data)
      else runLoop cfg strategy params sym data := by
  simp only [run_backtest, hlast]

/-- C4: on non-empty data, after `run_backtest` returns the positions map is
empty and every recorded trade has status CLOSED; moreover, if a position was
still open after the replay loop, it was closed by a forced sell at the final
bar's close price (note "Forced close", exit at the last bar's timestamp, at
the last close less slippage). -/
theorem C4_exhaustive_closure (cfg : BacktestConfig)
    (strategy : List Bar → StrategyParams → String) (params : StrategyParams)
    (sym : String) (data : List Bar) (h : data ≠ []) :
    (run_backtest cfg strategy sym data params).position = none ∧
    (∀ t ∈ (run_backtest cfg strategy sym data params).trades, t.status = "CLOSED") ∧
    (∀ pos, (runLoop cfg strategy params sym data).position = some pos →
      ∃ last tr, data.getLast? = some last ∧
        (run_backtest cfg strategy sym data params).trades =
          (runLoop cfg strategy params sym data).trades ++ [tr] ∧
        tr.notes = "Forced close" ∧ tr.status = "CLOSED" ∧
        tr.exit_time = some last.timestamp ∧
        tr.exit_price = last.close - last.close * cfg.slippage_pct) := by
  obtain ⟨last, hlast⟩ : ∃ last, data.getLast? = some last :=
    ⟨data.getLast h, List.getLast?_eq_getLast data h⟩
  have hclosedN : ∀ t ∈ (runLoop cfg strategy params sym data).trades,
      t.status = "CLOSED" := by
    apply runLoop_closed_aux
    intro t ht
    simp [initState] at ht
  rw [run_backtest_eq_of_getLast cfg strategy params sym data last hlast]
  refine ⟨?_, ?_, ?_⟩
  · split
    · exact execute_sell_position_none _ _ _ _ _ _
    · rename_i hns
      exact Option.not_isSome_iff_eq_none.mp hns
  · split
    · exact execute_sell_closed _ _ _ _ _ _ hclosedN
    · exact hclosedN
  · intro pos hpos
    rw [hpos]
    simp only [Option.isSome_some, if_true]
    have hsell : (execute_sell cfg sym last.timestamp last.close true
        (runLoop cfg strategy params sym data)).trades =
        (runLoop cfg strategy params sym data).trades ++
          [{ pos with
              exit_time := some last.timestamp,
              exit_price := last.close - last.close * cfg.slippage_pct,
              pnl := (last.close - last.close * cfg.slippage_pct) * (pos.quantity : ℚ) -
                  pos.entry_price * (pos.quantity : ℚ) -
                  (cfg.commission_per_trade +
                    (last.close - last.close * cfg.slippage_pct) * (pos.quantity : ℚ) *
                      cfg.commission_pct) -
                  (last.close - last.close * cfg.slippage_pct) * (pos.quantity : ℚ) *
                    cfg.slippage_pct -
                  pos.commission,
              status := "CLOSED",
              notes := "Forced close" }] := by
      simp only [execute_sell, hpos, reduceIte]
    exact ⟨last, _, hlast, hsell, rfl, rfl, rfl, rfl⟩

/-- C5: per-bar processing order and no-look-ahead. The equity entry appended
at bar `i` is computed from the state before the strategy call and before any
trade of that bar executes; the strategy function receives exactly
`data.iloc[:i+1]`, i.e. the `i+1` bars at indices `0..i`, and (for
timestamp-sorted data) never a bar with a timestamp later than bar `i`'s. -/
theorem C5_no_lookahead (cfg : BacktestConfig)
    (strategy : List Bar → StrategyParams → String) (params : StrategyParams)
    (sym : String) (data : List Bar) (i : ℕ) (bar : Bar) (st : BtState)
    (h : i < data.length)
    (hsorted : data.Pairwise fun a b => a.timestamp ≤ b.timestamp) :
    (processBar cfg strategy params sym data i bar st).equity_curve =
      st.equity_curve ++ [(bar.timestamp, calculate_current_equity bar.close st)] ∧
    stratInput data i = data.take (i + 1) ∧
    (stratInput data i).length = i + 1 ∧
    ∀ b ∈ stratInput data i, b.timestamp ≤ (data.get ⟨i, h⟩).timestamp := by
  refine ⟨processBar_equity cfg strategy params sym data i bar st, rfl, ?_, ?_⟩
  · rw [stratInput, List.length_take]
    omega
  · intro b hb
    rw [stratInput] at hb
    obtain ⟨j, hj, hbeq⟩ := List.mem_iff_getElem.mp hb
    have hji : j ≤ i := by
      have := hj
      rw [List.length_take] at this
      omega
    have hjlen : j < data.length := lt_of_le_of_lt hji h
    have hgj : (data.take (i + 1)).get ⟨j, hj⟩ = data.get ⟨j, hjlen⟩ := by
      simp [List.get_eq_getElem, List.getElem_take]
    have hbeq2 : data.get ⟨j, hjlen⟩ = b := by
      rw [← hgj]
      simpa [List.get_eq_getElem] using hbeq
    rw [← hbeq2]
    rcases eq_or_lt_of_le hji with rfl | hlt
    · exact le_of_eq rfl
    · exact List.pairwise_iff_get.mp hsorted ⟨j, hjlen⟩ ⟨i, h⟩ hlt

/-- Witness for C5 at a concrete input: the spec's 3-bar data, bar index 1. -/
theorem C5_no_lookahead_witness :
    (1 < dataC1.length ∧ dataC1.Pairwise fun a b => a.timestamp ≤ b.timestamp) ∧
    ((processBar cfgC1 stratC1 {} "SYM" dataC1 1 ⟨1, 110⟩ (initState cfgC1)).equity_curve =
        (initState cfgC1).equity_curve ++
          [((1 : ℕ), calculate_current_equity 110 (initState cfgC1))] ∧
      stratInput dataC1 1 = dataC1.take 2 ∧
      (stratInput dataC1 1).length = 2 ∧
      ∀ b ∈ stratInput dataC1 1, b.timestamp ≤ (dataC1.get ⟨1, by decide⟩).timestamp) :=
  ⟨⟨by decide, by decide⟩,
    C5_no_lookahead cfgC1 stratC1 {} "SYM" dataC1 1 ⟨1, 110⟩ (initState cfgC1)
      (by decide) (by decide)⟩

/-- C6: a BUY attempt whose computed position quantity is zero, or whose
total cost (gross value plus commission plus slippage) exceeds the current
capital, is a silent no-op: `_execute_buy` returns with the state (positions,
trades, capital, equity curve) completely unchanged. -/
theorem C6_buy_noop (cfg : BacktestConfig) (sym : String) (ts : ℕ) (price : ℚ)
    (st : BtState)
    (h : calculate_position_size cfg st.current_capital price = 0 ∨
         st.current_capital <
           buy_total_cost cfg price (calculate_position_size cfg st.current_capital price)) :
    execute_buy cfg sym ts price st = st := by
  rcases h with h | h
  · simp only [execute_buy, h, reduceIte]
  · by_cases hq : calculate_position_size cfg st.current_capital price = 0
    · simp only [execute_buy, hq, reduceIte]
    · simp only [buy_total_cost] at h
      simp only [execute_buy]
      rw [if_neg hq, if_pos h]

/-- A configuration whose fixed position size truncates to quantity zero. -/
def cfgW : BacktestConfig := { position_size := 0 }

/-- Witness for C6: with fixed sizing at 0, a BUY at price 100 is a no-op. -/
theorem C6_buy_noop_witness :
    calculate_position_size cfgW (initState cfgW).current_capital 100 = 0 ∧
    execute_buy cfgW "S" 0 100 (initState cfgW) = initState cfgW :=
  ⟨by decide, C6_buy_noop cfgW "S" 0 100 (initState cfgW) (Or.inl (by decide))⟩

/-- C10: when the strategy returns anything other than the exact strings
"BUY" and "SELL", the bar's processing is exactly the equity-curve append
followed by the stop-loss/take-profit check (when enabled): no entry and no
signal-driven exit happens, and the append itself leaves positions, trades
and capital untouched. -/
theorem C10_non_signal_frame (cfg : BacktestConfig)
    (strategy : List Bar → StrategyParams → String) (params : StrategyParams)
    (sym : String) (data : List Bar) (i : ℕ) (bar : Bar) (st : BtState)
    (hb : strategy (stratInput data i) params ≠ "BUY")
    (hs : strategy (stratInput data i) params ≠ "SELL") :
    processBar cfg strategy params sym data i bar st =
      (if cfg.enable_stop_loss || cfg.enable_take_profit then
        check_exit_conditions cfg sym bar.timestamp bar.close params (appendEquity bar st)
      else appendEquity bar st) ∧
    (appendEquity bar st).position = st.position ∧
    (appendEquity bar st).trades = st.trades ∧
    (appendEquity bar st).current_capital = st.current_capital := by
  refine ⟨?_, rfl, rfl, rfl⟩
  simp only [processBar]
  rw [if_neg hb, if_neg hs]

/-- A strategy that always returns the non-signal value "HOLD". -/
def stratHold : List Bar → StrategyParams → String := fun _ _ => "HOLD"

/-- Witness for C10 at a concrete input: a constant-HOLD strategy. -/
theorem C10_non_signal_frame_witness :
    (stratHold (stratInput dataC1 0) {} ≠ "BUY" ∧
     stratHold (stratInput dataC1 0) {} ≠ "SELL") ∧
    (processBar cfgC1 stratHold {} "SYM" dataC1 0 ⟨0, 100⟩ (initState cfgC1) =
      (if cfgC1.enable_stop_loss || cfgC1.enable_take_profit then
        check_exit_conditions cfgC1 "SYM" 0 100 {} (appendEquity ⟨0, 100⟩ (initState cfgC1))
      else appendEquity ⟨0, 100⟩ (initState cfgC1)) ∧
     (appendEquity ⟨0, 100⟩ (initState cfgC1)).position = (initState cfgC1).position ∧
     (appendEquity ⟨0, 100⟩ (initState cfgC1)).trades = (initState cfgC1).trades ∧
     (appendEquity ⟨0, 100⟩ (initState cfgC1)).current_capital =
       (initState cfgC1).current_capital) :=
  ⟨⟨by decide, by decide⟩,
    C10_non_signal_frame cfgC1 stratHold {} "SYM" dataC1 0 ⟨0, 100⟩ (initState cfgC1)
      (by decide) (by decide)⟩

/-- C8: slippage is applied to the execution price and never improves a
fill. A successful buy records entry price `p * (1 + slippage_pct)` and a
sell records exit price `p * (1 - slippage_pct)`; for strictly positive
price and slippage the buy fill is strictly above the raw bar price and the
sell fill strictly below it. -/
theorem C8_slippage_adverse (cfg : BacktestConfig) (sym : String) (ts : ℕ)
    (p : ℚ) (f : Bool) (st : BtState) (pos : BacktestTrade)
    (hs : 0 ≤ cfg.slippage_pct)
    (hq : calculate_position_size cfg st.current_capital p ≠ 0)
    (hc : ¬ st.current_capital <
      buy_total_cost cfg p (calculate_position_size cfg st.current_capital p))
    (hpos : st.position = some pos) :
    (∃ tr, (execute_buy cfg sym ts p st).position = some tr ∧
      tr.entry_price = p * (1 + cfg.slippage_pct) ∧
      (0 < p → 0 < cfg.slippage_pct → p < tr.entry_price)) ∧
    (∃ tr, (execute_sell cfg sym ts p f st).trades = st.trades ++ [tr] ∧
      tr.exit_price = p * (1 - cfg.slippage_pct) ∧
      (0 < p → 0 < cfg.slippage_pct → tr.exit_price < p)) := by
  constructor
  · simp only [buy_total_cost] at hc
    simp only [execute_buy]
    rw [if_neg hq, if_neg hc]
    refine ⟨_, rfl, ?_, ?_⟩
    · show p + p * cfg.slippage_pct = p * (1 + cfg.slippage_pct)
      ring
    · intro hp hs2
      show p < p + p * cfg.slippage_pct
      have := mul_pos hp hs2
      linarith
  · simp only [execute_sell, hpos]
    refine ⟨_, rfl, ?_, ?_⟩
    · show p - p * cfg.slippage_pct = p * (1 - cfg.slippage_pct)
      ring
    · intro hp hs2
      show p - p * cfg.slippage_pct < p
      have := mul_pos hp hs2
      linarith

/-- Configuration with 1% slippage, zero commission, fixed sizing at 10. -/
def cfg8 : BacktestConfig :=
  { initial_capital := 10000, commission_per_trade := 0, commission_pct := 0,
    slippage_pct := 0.01, position_sizing := "fixed", position_size := 10 }

/-- A concrete open position: entry at 100, quantity 10, no stored costs. -/
def tr8 : BacktestTrade :=
  { entry_time := 0, symbol := "S", action := "BUY", entry_price := 100,
    quantity := 10 }

/-- A concrete state holding the open position `tr8` and capital 10000. -/
def st8 : BtState :=
  { current_capital := 10000, position := some tr8, trades := [], equity_curve := [] }

/-- Witness for C8 at price 100 with 1% slippage. -/
theorem C8_slippage_adverse_witness :
    ((0 : ℚ) ≤ cfg8.slippage_pct ∧
     calculate_position_size cfg8 st8.current_capital 100 ≠ 0 ∧
     ¬ st8.current_capital <
       buy_total_cost cfg8 100 (calculate_position_size cfg8 st8.current_capital 100) ∧
     st8.position = some tr8) ∧
    ((∃ tr, (execute_buy cfg8 "S" 1 100 st8).position = some tr ∧
       tr.entry_price = 100 * (1 + cfg8.slippage_pct) ∧
       ((0 : ℚ) < 100 → 0 < cfg8.slippage_pct → 100 < tr.entry_price)) ∧
     (∃ tr, (execute_sell cfg8 "S" 1 100 false st8).trades = st8.trades ++ [tr] ∧
       tr.exit_price = 100 * (1 - cfg8.slippage_pct) ∧
       ((0 : ℚ) < 100 → 0 < cfg8.slippage_pct → tr.exit_price < 100))) :=
  ⟨⟨by norm_num [cfg8], by decide,
    by norm_num [cfg8, st8, buy_total_cost, calculate_position_size, pyInt], rfl⟩,
   C8_slippage_adverse cfg8 "S" 1 100 false st8 tr8
     (by norm_num [cfg8]) (by decide)
     (by norm_num [cfg8, st8, buy_total_cost, calculate_position_size, pyInt]) rfl⟩

/-- C9: the per-trade `commission`/`slippage` fields are set only at buy
time to the entry-leg amounts; `_execute_sell` computes exit-leg commission
and slippage, deducts them from capital and from the trade's P&L, but never
adds them to the stored fields, so the `total_commission`/`total_slippage`
aggregates (sums of the stored fields) grow only by the entry-leg amounts
when a trade closes and hence exclude all exit-leg costs. -/
theorem C9_totals_exclude_exit (cfg : BacktestConfig) (sym : String)
    (t1 t2 : ℕ) (pb ps : ℚ) (f : Bool) (st st2 : BtState) (pos : BacktestTrade)
    (hq : calculate_position_size cfg st.current_capital pb ≠ 0)
    (hc : ¬ st.current_capital <
      buy_total_cost cfg pb (calculate_position_size cfg st.current_capital pb))
    (hpos : st2.position = some pos) :
    (∃ tr, (execute_buy cfg sym t1 pb st).position = some tr ∧
      tr.commission = cfg.commission_per_trade +
        pb * (calculate_position_size cfg st.current_capital pb : ℚ) *
          cfg.commission_pct ∧
      tr.slippage =
        pb * (calculate_position_size cfg st.current_capital pb : ℚ) *
          cfg.slippage_pct) ∧
    (∃ tr, (execute_sell cfg sym t2 ps f st2).trades = st2.trades ++ [tr] ∧
      tr.commission = pos.commission ∧
      tr.slippage = pos.slippage ∧
      tr.pnl = (ps - ps * cfg.slippage_pct) * (pos.quantity : ℚ) -
          pos.entry_price * (pos.quantity : ℚ) -
          (cfg.commission_per_trade +
            (ps - ps * cfg.slippage_pct) * (pos.quantity : ℚ) * cfg.commission_pct) -
          (ps - ps * cfg.slippage_pct) * (pos.quantity : ℚ) * cfg.slippage_pct -
          pos.commission ∧
      (execute_sell cfg sym t2 ps f st2).current_capital =
        st2.current_capital + (ps - ps * cfg.slippage_pct) * (pos.quantity : ℚ) -
          (cfg.commission_per_trade +
            (ps - ps * cfg.slippage_pct) * (pos.quantity : ℚ) * cfg.commission_pct) -
          (ps - ps * cfg.slippage_pct) * (pos.quantity : ℚ) * cfg.slippage_pct) ∧
    total_commission (execute_sell cfg sym t2 ps f st2).trades =
      total_commission st2.trades + pos.commission ∧
    total_slippage (execute_sell cfg sym t2 ps f st2).trades =
      total_slippage st2.trades + pos.slippage := by
  refine ⟨?_, ?_, ?_, ?_⟩
  · simp only [buy_total_cost] at hc
    simp only [execute_buy]
    rw [if_neg hq, if_neg hc]
    exact ⟨_, rfl, rfl, rfl⟩
  · simp only [execute_sell, hpos]
    refine ⟨_, rfl, ?_, ?_, ?_, ?_⟩ <;> first | rfl | trivial
  · simp only [execute_sell, hpos, total_commission, List.map_append, List.sum_append,
      List.map_cons, List.map_nil, List.sum_cons, List.sum_nil, add_zero]
  · simp only [execute_sell, hpos, total_slippage, List.map_append, List.sum_append,
      List.map_cons, List.map_nil, List.sum_cons, List.sum_nil, add_zero]

/-- Witness for C9: buy at 100 and sell at 110 under `cfg8`/`st8`. -/
theorem C9_totals_exclude_exit_witness :
    (calculate_position_size cfg8 st8.current_capital 100 ≠ 0 ∧
     ¬ st8.current_capital <
       buy_total_cost cfg8 100 (calculate_position_size cfg8 st8.current_capital 100) ∧
     st8.position = some tr8) ∧
    ((∃ tr, (execute_buy cfg8 "S" 1 100 st8).position = some tr ∧
       tr.commission = cfg8.commission_per_trade +
         100 * (calculate_position_size cfg8 st8.current_capital 100 : ℚ) *
           cfg8.commission_pct ∧
       tr.slippage =
         100 * (calculate_position_size cfg8 st8.current_capital 100 : ℚ) *
           cfg8.slippage_pct) ∧
     (∃ tr, (execute_sell cfg8 "S" 2 110 false st8).trades = st8.trades ++ [tr] ∧
       tr.commission = tr8.commission ∧
       tr.slippage = tr8.slippage ∧
       tr.pnl = (110 - 110 * cfg8.slippage_pct) * (tr8.quantity : ℚ) -
           tr8.entry_price * (tr8.quantity : ℚ) -
           (cfg8.commission_per_trade +
             (110 - 110 * cfg8.slippage_pct) * (tr8.quantity : ℚ) * cfg8.commission_pct) -
           (110 - 110 * cfg8.slippage_pct) * (tr8.quantity : ℚ) * cfg8.slippage_pct -
           tr8.commission ∧
       (execute_sell cfg8 "S" 2 110 false st8).current_capital =
         st8.current_capital + (110 - 110 * cfg8.slippage_pct) * (tr8.quantity : ℚ) -
           (cfg8.commission_per_trade +
             (110 - 110 * cfg8.slippage_pct) * (tr8.quantity : ℚ) * cfg8.commission_pct) -
           (110 - 110 * cfg8.slippage_pct) * (tr8.quantity : ℚ) * cfg8.slippage_pct) ∧
     total_commission (execute_sell cfg8 "S" 2 110 false st8).trades =
       total_commission st8.trades + tr8.commission ∧
     total_slippage (execute_sell cfg8 "S" 2 110 false st8).trades =
       total_slippage st8.trades + tr8.slippage) :=
  ⟨⟨by decide,
    by norm_num [cfg8, st8, buy_total_cost, calculate_position_size, pyInt], rfl⟩,
   C9_totals_exclude_exit cfg8 "S" 1 2 100 110 false st8 st8 tr8
     (by decide)
     (by norm_num [cfg8, st8, buy_total_cost, calculate_position_size, pyInt]) rfl⟩

/-- A strategy that always returns "BUY", leaving its position open until the
end-of-data forced close. -/
def stratBuyOnly : List Bar → StrategyParams → String := fun _ _ => "BUY"

/-- Witness for C4: an always-BUY strategy on the 3-bar data leaves a
position open after the loop, and the run force-closes it. -/
theorem C4_exhaustive_closure_witness :
    dataC1 ≠ [] ∧
    ((run_backtest cfgC1 stratBuyOnly "SYM" dataC1 {}).position = none ∧
     (∀ t ∈ (run_backtest cfgC1 stratBuyOnly "SYM" dataC1 {}).trades,
        t.status = "CLOSED") ∧
     (∀ pos, (runLoop cfgC1 stratBuyOnly {} "SYM" dataC1).position = some pos →
       ∃ last tr, dataC1.getLast? = some last ∧
         (run_backtest cfgC1 stratBuyOnly "SYM" dataC1 {}).trades =
           (runLoop cfgC1 stratBuyOnly {} "SYM" dataC1).trades ++ [tr] ∧
         tr.notes = "Forced close" ∧ tr.status = "CLOSED" ∧
         tr.exit_time = some last.timestamp ∧
         tr.exit_price = last.close - last.close * cfgC1.slippage_pct)) :=
  ⟨by decide, C4_exhaustive_closure cfgC1 stratBuyOnly {} "SYM" dataC1 (by decide)⟩
